import Mathlib

/-!
Verification development for the LLaVA-Next forward-computation module
(`nemo/collections/vlm/llava_next/model/base.py`): a shallow embedding of
the batch-preparation step (`llava_next_data_step`), the model forward
function (`MCoreLlavaNextModel.forward`), and the tile-packing / sequence
fusion engines it calls (`pack_image_features`,
`merge_input_ids_with_image_features`, whose defining module `utils.py` is
not among the provided sources and is therefore modelled from the spec),
together with theorems about the specified properties.
-/

set_option autoImplicit false

/-! ### Tile-Packing Engine (spec-modelled) -/

/-- Modelled from the spec: helper of `pack_image_features` (its defining
source file `utils.py` is absent from the provided sources).  Reshapes the
flat tile list of one image into `R` rows of `C` tiles, each row flattened
into one token sequence.  Each tile is a `tile_seq_len`-long list of
embedding slots; `α` is the type of one embedding slot. -/
def rowsOf {α : Type} (C : Nat) : Nat → List (List α) → List (List α)
  | 0, _ => []
  | R + 1, tiles => (tiles.take C).flatten :: rowsOf C R (tiles.drop C)

/-- Modelled from the spec: row concatenation inside `pack_image_features` —
after every row except the final row, one copy of the separator embedding is
appended; an empty row list yields an empty sequence with no separator. -/
def joinRows {α : Type} (sep : List α) : List (List α) → List α
  | [] => []
  | [r] => r
  | r :: r2 :: rs => r ++ sep ++ joinRows sep (r2 :: rs)

/-- Modelled from the spec: packing of a single image inside
`pack_image_features` — lay the image's tiles out as an `R`-by-`C` grid,
flatten row-major, with the separator after every non-final row. -/
def pack_one {α : Type} (R C : Nat) (tiles : List (List α)) (sep : List α) : List α :=
  joinRows sep (rowsOf C R tiles)

/-- Modelled from the spec: `pack_image_features` (defined in the absent
`utils.py`).  Each image is given as its grid shape `(R, C)` (derived from
`image_sizes` by the external tiling-resolution policy) together with its
flat tile list; the result is the per-image packed sequences paired with
`feature_lens`, the recorded length of each packed sequence. -/
def pack_image_features {α : Type} (images : List (Nat × Nat × List (List α)))
    (sep : List α) : List (List α) × List Nat :=
  let packed := images.map (fun img => pack_one img.1 img.2.1 img.2.2 sep)
  (packed, packed.map List.length)

lemma join_length_const {α : Type} (L : Nat) (ts : List (List α))
    (h : ∀ t ∈ ts, t.length = L) : ts.flatten.length = ts.length * L := by
  induction ts with
  | nil => simp
  | cons t ts ih =>
      have ht := h t (by simp)
      have ih2 := ih (fun x hx => h x (by simp [hx]))
      simp [ht, ih2, Nat.succ_mul, Nat.add_comm]

lemma rowsOf_count {α : Type} (C : Nat) :
    ∀ (R : Nat) (tiles : List (List α)), (rowsOf C R tiles).length = R := by
  intro R
  induction R with
  | zero => intro tiles; rfl
  | succ R ih => intro tiles; simp [rowsOf, ih]

lemma rowsOf_row_len {α : Type} (C L : Nat) :
    ∀ (R : Nat) (tiles : List (List α)), tiles.length = R * C →
      (∀ t ∈ tiles, t.length = L) →
      ∀ r ∈ rowsOf C R tiles, r.length = C * L := by
  intro R
  induction R with
  | zero => intro tiles _ _ r hr; simp [rowsOf] at hr
  | succ R ih =>
      intro tiles hlen hL r hr
      simp only [rowsOf, List.mem_cons] at hr
      rcases hr with hr | hr
      · subst hr
        have htake : (tiles.take C).length = C := by
          rw [List.length_take, hlen, Nat.succ_mul]
          omega
        have := join_length_const L (tiles.take C)
          (fun t ht => hL t (List.mem_of_mem_take ht))
        rw [this, htake]
      · exact ih (tiles.drop C)
          (by rw [List.length_drop, hlen, Nat.succ_mul]; omega)
          (fun t ht => hL t (List.mem_of_mem_drop ht)) r hr

lemma joinRows_length {α : Type} (sep : List α) (W : Nat) :
    ∀ (rows : List (List α)), (∀ r ∈ rows, r.length = W) →
      (joinRows sep rows).length = rows.length * W + (rows.length - 1) * sep.length := by
  intro rows
  induction rows with
  | nil => intro _; simp [joinRows]
  | cons r rs ih =>
      intro h
      cases rs with
      | nil => simp [joinRows, h r (by simp)]
      | cons r2 rs2 =>
          have hr := h r (by simp)
          have ih2 := ih (fun x hx => h x (by simp [List.mem_cons] at hx ⊢; tauto))
          simp only [joinRows, List.length_append, hr, ih2, List.length_cons,
            Nat.add_sub_cancel]
          ring

lemma pack_one_length {α : Type} (R C L : Nat) (tiles : List (List α)) (sep : List α)
    (h1 : tiles.length = R * C) (h2 : ∀ t ∈ tiles, t.length = L) :
    (pack_one R C tiles sep).length = R * C * L + (R - 1) * sep.length := by
  have hrows := rowsOf_row_len C L R tiles h1 h2
  have hcount := rowsOf_count C R tiles
  rw [pack_one, joinRows_length sep (C * L) (rowsOf C R tiles) hrows, hcount,
    ← Nat.mul_assoc]

/-- C1: for an image laid out as an R-by-C grid of tiles, each tile holding
`L` embedding slots, the packed length recorded in `feature_lens` equals
`R*C*L + (R-1)*sep.length`; and an image with zero tiles (empty grid)
contributes feature length 0 with an empty packed sequence, hence no
separator inserted. -/
theorem pack_image_features_len {α : Type} (R C L : Nat) (tiles : List (List α))
    (sep : List α) (h1 : tiles.length = R * C) (h2 : ∀ t ∈ tiles, t.length = L) :
    (pack_image_features [(R, C, tiles)] sep).2 = [R * C * L + (R - 1) * sep.length]
    ∧ pack_image_features ([(0, 0, [])] : List (Nat × Nat × List (List α))) sep
        = ([[]], [0]) := by
  constructor
  · simp [pack_image_features, pack_one_length R C L tiles sep h1 h2]
  · rfl

/-- Witness for C1, at the spec's own scenario: a 2-by-3 grid with
`tile_seq_len = 4` and a 1-slot separator gives feature length
`2*3*4 + 1*1 = 25`. -/
theorem pack_image_features_len_w :
    (List.replicate 6 (List.replicate 4 (0 : Nat))).length = 2 * 3
    ∧ (pack_image_features [(2, 3, List.replicate 6 (List.replicate 4 (0 : Nat)))]
        [9]).2 = [2 * 3 * 4 + (2 - 1) * ([(9 : Nat)] : List Nat).length] :=
  ⟨by decide,
    (pack_image_features_len 2 3 4 (List.replicate 6 (List.replicate 4 (0 : Nat)))
      [9] (by decide) (by decide)).1⟩

/-! ### Sequence Fusion Engine (spec-modelled) -/

/-- Modelled from the spec: `merge_input_ids_with_image_features` for one
batch element (its defining source file `utils.py` is absent from the
provided sources; the batched function applies this to each batch element
independently).  Scans the token-id sequence in order; every occurrence of
the sentinel `m` consumes the next unconsumed packed-media segment and is
replaced by that segment's full embedding sequence; every other position
copies its text embedding unchanged.  A sentinel-count/segment-count
mismatch raises SequenceAlignmentError instead of truncating or padding. -/
def merge_input_ids_with_image_features {α : Type} (m : Int) :
    List Int → List α → List (List α) → Except String (List α)
  | [], [], [] => Except.ok []
  | [], [], _ :: _ => Except.error "SequenceAlignmentError"
  | [], _ :: _, _ => Except.error "ShapeMismatch"
  | _ :: _, [], _ => Except.error "ShapeMismatch"
  | t :: ts, e :: es, segs =>
    if t = m then
      match segs with
      | [] => Except.error "SequenceAlignmentError"
      | seg :: rest =>
          Except.map (fun tail => seg ++ tail)
            (merge_input_ids_with_image_features m ts es rest)
    else
      Except.map (fun tail => e :: tail)
        (merge_input_ids_with_image_features m ts es segs)

/-- Modelled from the spec: position ids of the combined sequence are densely
increasing integers, one unique position per combined slot. -/
def merged_position_ids {α : Type} (combined : List α) : List Nat :=
  List.range combined.length

/-- Modelled from the spec: number of sentinel occurrences in one batch
element's token-id sequence. -/
def sentinelCount (m : Int) (toks : List Int) : Nat :=
  toks.countP (fun t => decide (t = m))

/-- C2: the token sequence `[5, 5, MEDIA, 7, 7]` (sentinel `-200`) with one
media segment `[m0, m1, m2]` fuses to `[e0, e1, m0, m1, m2, e3, e4]` of
length 7 with position ids `[0, 1, 2, 3, 4, 5, 6]`: the sentinel occurrence
is replaced by the segment and every non-sentinel position copies its text
embedding unchanged. -/
theorem merge_scenario (e0 e1 e2 e3 e4 m0 m1 m2 : Nat) :
    merge_input_ids_with_image_features (-200) [5, 5, -200, 7, 7]
        [e0, e1, e2, e3, e4] [[m0, m1, m2]]
      = Except.ok [e0, e1, m0, m1, m2, e3, e4]
    ∧ ([e0, e1, m0, m1, m2, e3, e4] : List Nat).length = 7
    ∧ merged_position_ids [e0, e1, m0, m1, m2, e3, e4] = [0, 1, 2, 3, 4, 5, 6] :=
  ⟨rfl, rfl, rfl⟩

/-- C3: for a batch element whose sentinel-occurrence count differs from the
number of media segments assigned to it, fusion reports
SequenceAlignmentError rather than silently truncating or padding. -/
theorem merge_mismatch {α : Type} (m : Int) :
    ∀ (toks : List Int) (embs : List α) (segs : List (List α)),
      toks.length = embs.length → sentinelCount m toks ≠ segs.length →
      merge_input_ids_with_image_features m toks embs segs
        = Except.error "SequenceAlignmentError" := by
  intro toks
  induction toks with
  | nil =>
      intro embs segs hlen hmis
      cases embs with
      | nil =>
          cases segs with
          | nil => simp [sentinelCount] at hmis
          | cons s ss => rfl
      | cons e es => simp at hlen
  | cons t ts ih =>
      intro embs segs hlen hmis
      cases embs with
      | nil => simp at hlen
      | cons e es =>
          have hlen2 : ts.length = es.length := by simpa using hlen
          by_cases ht : t = m
          · cases segs with
            | nil => simp [merge_input_ids_with_image_features, ht]
            | cons s ss =>
                have hmis2 : sentinelCount m ts ≠ ss.length := by
                  simp only [sentinelCount, List.countP_cons, ht] at hmis ⊢
                  simp at hmis
                  omega
                simp only [merge_input_ids_with_image_features, if_pos ht]
                rw [ih es ss hlen2 hmis2]
                rfl
          · have hmis2 : sentinelCount m ts ≠ segs.length := by
              simp only [sentinelCount, List.countP_cons, ht] at hmis ⊢
              simpa using hmis
            simp only [merge_input_ids_with_image_features, if_neg ht]
            rw [ih es segs hlen2 hmis2]
            rfl

/-- Witness for C3: 2 sentinel tokens but only 1 assigned media segment. -/
theorem merge_mismatch_w :
    sentinelCount (-200) [-200, -200] ≠ ([[5]] : List (List Nat)).length
    ∧ merge_input_ids_with_image_features (-200) [-200, -200]
        ([0, 0] : List Nat) [[5]] = Except.error "SequenceAlignmentError" :=
  ⟨by decide, merge_mismatch (-200) [-200, -200] [0, 0] [[5]] (by decide) (by decide)⟩

/-! ### Model forward (`MCoreLlavaNextModel.forward`, `base.py` lines 214-373)

Shallow embedding conventions: one batch element (`b = 1`; the batched code
applies the same computation per element); tensors are lists; the external
black-box modules (vision encoder + feature-layer select + class-token drop
+ permute + projection; language-model embedding lookup; language-model
decoder) are function-valued fields of the model record, per spec section 1;
`gather_from_sequence_parallel_region` is rendered as the identity on the
full-width logical value of the collective. -/

/-- Inference-time parameters; only the key-value memory dictionary is
relevant here (`inference_params.key_value_memory_dict`). -/
structure InferenceParams where
  key_value_memory_dict : List (String × Nat)
deriving DecidableEq, Repr

/-- Python `"k" in d` for the key-value memory dictionary. -/
def hasKey (d : List (String × Nat)) (k : String) : Bool :=
  d.any (fun p => p.1 == k)

/-- `base.py` line 248: `use_inference_kv_cache = inference_params is not
None and "image_tokens_count" in inference_params.key_value_memory_dict`. -/
def use_inference_kv_cache (inference_params : Option InferenceParams) : Bool :=
  match inference_params with
  | some ip => hasKey ip.key_value_memory_dict "image_tokens_count"
  | none => false

/-- The model state of `MCoreLlavaNextModel`: the stage-role flags, the
black-box submodules as functions, and the learned `image_newline`
row-separator parameter.  `τ` is the type of one raw image tile, `α` the
type of one embedding slot, `σ` the language-model output type. -/
structure LlavaNextModel (τ α σ : Type) where
  add_encoder : Bool
  add_decoder : Bool
  pre_process : Bool
  sequence_parallel_lm : Bool
  tp_world_size : Nat
  vision_model_from_hf : Bool
  vision_model_eval_mode : Bool
  vision_chain : List τ → List (List α)
  encoder_hidden_state : Option (List (List α))
  lm_embedding : List Int → List Nat → List α
  language_model : List α → Option (List Int) → σ
  image_newline : List α

/-- `MCoreLlavaNextModel.__init__` (`base.py` lines 178-212): the super-class
init wires the submodules and flags; the `image_newline` learnable parameter
is created here, once, from the sampled random vector (the `randn * embed_std`
initialisation is external randomness, passed in already scaled). -/
def mkLlavaNextModel {τ α σ : Type}
    (add_encoder add_decoder pre_process sequence_parallel_lm : Bool)
    (tp_world_size : Nat) (vision_model_from_hf : Bool)
    (vision_chain : List τ → List (List α))
    (encoder_hidden_state : Option (List (List α)))
    (lm_embedding : List Int → List Nat → List α)
    (language_model : List α → Option (List Int) → σ)
    (image_newline_init : List α) : LlavaNextModel τ α σ :=
  { add_encoder := add_encoder, add_decoder := add_decoder,
    pre_process := pre_process, sequence_parallel_lm := sequence_parallel_lm,
    tp_world_size := tp_world_size, vision_model_from_hf := vision_model_from_hf,
    vision_model_eval_mode := false, vision_chain := vision_chain,
    encoder_hidden_state := encoder_hidden_state, lm_embedding := lm_embedding,
    language_model := language_model, image_newline := image_newline_init }

/-- Result of one forward call: the encoder-only hand-off return of the raw
media embeddings, the plain output return, the (output, final_loss_mask)
pair, or a raised Python exception. -/
inductive FwdResult (α σ : Type) where
  | handoff : Option (List (List α)) → FwdResult α σ
  | single : σ → FwdResult α σ
  | pair : σ → List Nat → FwdResult α σ
  | crash : String → FwdResult α σ
deriving DecidableEq

def isPair {α σ : Type} : FwdResult α σ → Bool
  | FwdResult.pair _ _ => true
  | _ => false

def isCrash {α σ : Type} : FwdResult α σ → Bool
  | FwdResult.crash _ => true
  | _ => false

def isHandoff {α σ : Type} : FwdResult α σ → Bool
  | FwdResult.handoff _ => true
  | _ => false

def isSingle {α σ : Type} : FwdResult α σ → Bool
  | FwdResult.single _ => true
  | _ => false

/-- `torch.split(x, counts, dim=0)` on the tile dimension. -/
def splitByCounts {β : Type} : List β → List Nat → List (List β)
  | _, [] => []
  | xs, c :: cs => xs.take c :: splitByCounts (xs.drop c) cs

/-- `base.py` lines 298-300 value-wise: the in-place
`input_ids_text[input_ids_text < 0] = 0` on the clone maps every negative
token id to 0. -/
def clampNeg (t : Int) : Int := if t < 0 then 0 else t

/-- `base.py` lines 307-309: the padded sequence length target,
`(seq_len + tp - 1) // tp * tp`. -/
def spPadTarget (tp n : Nat) : Nat := (n + tp - 1) / tp * tp

/-- `base.py` lines 304-328, the sequence-parallel embedding-lookup path:
pad the token ids (and position ids) on the right to the next multiple of
the tensor-parallel world size, run the embedding lookup, gather the sharded
result back to full width (identity on the logical full value), and strip
the padding again (`language_embeddings[:-padded_seq_len]`, guarded by
`padded_seq_len != 0`). -/
def sp_text_embeddings {α : Type} (tp : Nat) (emb : List Int → List Nat → List α)
    (ids : List Int) (pos : List Nat) : List α :=
  let padded_seq_len := spPadTarget tp ids.length - ids.length
  let ids2 := ids ++ List.replicate padded_seq_len 0
  let pos2 := pos ++ List.replicate padded_seq_len 0
  let e := emb ids2 pos2
  if padded_seq_len ≠ 0 then e.take (e.length - padded_seq_len) else e

/-- `base.py` lines 296-329: the text-embedding lookup on the `pre_process`
stage.  The clone+in-place sentinel strip is the pure `clampNeg` map on a
fresh list (see `stripSentinels` for the heap-level rendering); the caller's
`input_ids` value is left untouched. -/
def text_embeddings_for {τ α σ : Type} (M : LlavaNextModel τ α σ)
    (input_ids : List Int) (position_ids : List Nat) : Option (List α) :=
  if M.pre_process then
    let input_ids_text := input_ids.map clampNeg
    if M.sequence_parallel_lm then
      some (sp_text_embeddings M.tp_world_size M.lm_embedding input_ids_text position_ids)
    else some (M.lm_embedding input_ids_text position_ids)
  else none

/-- `base.py` lines 331-343: default `num_media_tiles` to one tile per image,
split the media embeddings by tile counts, and run the Tile-Packing Engine
with the learned `image_newline` separator.  `image_sizes` carries each
image's `(rows, cols)` grid shape as produced by the external
tiling-resolution policy from the raw pixel sizes. -/
def packed_for {τ α σ : Type} (M : LlavaNextModel τ α σ)
    (image_sizes : List (Nat × Nat)) (media : List τ)
    (num_media_tiles : Option (List Nat)) (embs : List (List α)) :
    List (List α) × List Nat :=
  let num_tiles : List Nat :=
    match num_media_tiles with
    | none => List.replicate media.length 1
    | some l => l
  pack_image_features
    (List.zipWith (fun (rc : Nat × Nat) tiles => (rc.1, rc.2, tiles))
      image_sizes (splitByCounts embs num_tiles))
    M.image_newline

/-- Modelled from the spec: the loss-mask companion expansion of the fusion
engine (`utils.py` is absent) — a media segment of feature length `L`
expands into `L` positions with loss-mask value 0, every other position
copies its loss-mask entry. -/
def expand_mask (m : Int) : List Int → List Nat → List Nat → List Nat
  | [], _, _ => []
  | t :: ts, mask, lens =>
    if t = m then
      match lens with
      | [] => expand_mask m ts mask.tail []
      | L :: lr => List.replicate L 0 ++ expand_mask m ts mask.tail lr
    else mask.headD 0 :: expand_mask m ts mask.tail lens

/-- `base.py` lines 370-373: `if labels is None or loss_mask is None: return
output` else `return output, final_loss_mask`. -/
def final_return {α σ : Type} (labels : Option (List Int))
    (loss_mask : Option (List Nat)) (output : σ) (final_loss_mask : List Nat) :
    FwdResult α σ :=
  if labels = none ∨ loss_mask = none then FwdResult.single output
  else FwdResult.pair output final_loss_mask

/-- `media_embeddings.shape[0] * media_embeddings.shape[1]` (`base.py`
lines 287-289). -/
def shape01 {α : Type} (e : List (List α)) : Nat :=
  e.length * (e.headD []).length

/-- `base.py` lines 248-291: the media-embedding branch chain.  Returns the
`media_embeddings` value (None on a cache hit) together with the updated
model state (the HF path flips the vision model to eval mode) and the
updated inference params (the encoder path records the media token count
under the key `"media_tokens_count"`). -/
def media_stage {τ α σ : Type} (M : LlavaNextModel τ α σ) (media : List τ)
    (inference_params : Option InferenceParams) :
    Option (List (List α)) × LlavaNextModel τ α σ × Option InferenceParams :=
  let use_kv := use_inference_kv_cache inference_params
  let has_images : Bool := decide (0 < media.length)
  if use_kv then (none, M, inference_params)
  else if M.add_encoder && !has_images then (some [], M, inference_params)
  else if M.add_encoder && has_images then
    let M2 := if M.vision_model_from_hf
      then { M with vision_model_eval_mode := true } else M
    let embs := M.vision_chain media
    let ip2 :=
      match inference_params with
      | some ip =>
          some { key_value_memory_dict :=
                   ip.key_value_memory_dict ++ [("media_tokens_count", shape01 embs)] }
      | none => none
    (some embs, M2, ip2)
  else (M.encoder_hidden_state, M, inference_params)

/-- `base.py` lines 296-373 (the part after the `add_decoder` early return):
text-embedding lookup, tile split + packing, sequence fusion, language-model
decoder, and the final return.  A fusion error is a raised exception; a
`None` media-embeddings value hits `torch.split(None, ...)`, which raises. -/
def decoder_stage {τ α σ : Type} (M : LlavaNextModel τ α σ)
    (input_ids : List Int) (position_ids : List Nat)
    (image_sizes : List (Nat × Nat)) (loss_mask : Option (List Nat))
    (media : List τ) (labels : Option (List Int))
    (num_media_tiles : Option (List Nat)) (media_token_index : Int)
    (media_embeddings : Option (List (List α))) : FwdResult α σ :=
  match media_embeddings with
  | none => FwdResult.crash "TypeError: NoneType has no attribute split"
  | some embs =>
    let packed := packed_for M image_sizes media num_media_tiles embs
    match merge_input_ids_with_image_features media_token_index input_ids
        ((text_embeddings_for M input_ids position_ids).getD []) packed.1 with
    | Except.error e => FwdResult.crash e
    | Except.ok combined =>
        final_return labels loss_mask (M.language_model combined labels)
          (expand_mask media_token_index input_ids (loss_mask.getD []) packed.2)

/-- `MCoreLlavaNextModel.forward` (`base.py` lines 214-373): the media branch
chain, the encoder-only early return (`if not self.add_decoder: return
media_embeddings`), and the decoder stage.  Returns the forward result
together with the post-call model state and inference params.
`attention_mask` and `runtime_gather_output` are forwarded to the black-box
language model and are not modelled further. -/
def forward {τ α σ : Type} (M : LlavaNextModel τ α σ)
    (input_ids : List Int) (position_ids : List Nat)
    (image_sizes : List (Nat × Nat)) (loss_mask : Option (List Nat))
    (_attention_mask : Option (List Nat)) (media : List τ)
    (labels : Option (List Int)) (inference_params : Option InferenceParams)
    (num_media_tiles : Option (List Nat)) (media_token_index : Int) :
    FwdResult α σ × LlavaNextModel τ α σ × Option InferenceParams :=
  let s := media_stage M media inference_params
  if !M.add_decoder then (FwdResult.handoff s.1, s.2.1, s.2.2)
  else
    (decoder_stage M input_ids position_ids image_sizes loss_mask media labels
      num_media_tiles media_token_index s.1, s.2.1, s.2.2)

/-! ### Concrete instantiations used by the closed theorems and witnesses -/

/-- A concrete single-stage (encoder + decoder) model over `Nat` slots:
each raw tile `t` encodes to the one-slot tile `[t]`, the embedding lookup
maps each token id to its `toNat`, and the language model echoes the
combined embedding sequence. -/
def Mfull : LlavaNextModel Nat Nat (List Nat) :=
  { add_encoder := true, add_decoder := true, pre_process := true,
    sequence_parallel_lm := false, tp_world_size := 1,
    vision_model_from_hf := false, vision_model_eval_mode := false,
    vision_chain := fun tiles => tiles.map (fun t => [t]),
    encoder_hidden_state := none,
    lm_embedding := fun ids _ => ids.map Int.toNat,
    language_model := fun combined _ => combined,
    image_newline := [99] }

/-- A concrete encoder-only pipeline-stage model (`add_decoder = false`). -/
def Menc : LlavaNextModel Nat Nat (List Nat) :=
  { Mfull with add_decoder := false }

/-! ### Helper lemmas about `forward` -/

lemma final_return_arity {α σ : Type} (labels : Option (List Int))
    (loss_mask : Option (List Nat)) (o : σ) (fl : List Nat) :
    isPair (final_return (α := α) labels loss_mask o fl)
      = (labels.isSome && loss_mask.isSome) := by
  cases labels <;> cases loss_mask <;> simp [final_return, isPair]

lemma forward_snd {τ α σ : Type} (M : LlavaNextModel τ α σ)
    (input_ids : List Int) (position_ids : List Nat)
    (image_sizes : List (Nat × Nat)) (loss_mask : Option (List Nat))
    (attention_mask : Option (List Nat)) (media : List τ)
    (labels : Option (List Int)) (inference_params : Option InferenceParams)
    (num_media_tiles : Option (List Nat)) (media_token_index : Int) :
    (forward M input_ids position_ids image_sizes loss_mask attention_mask
        media labels inference_params num_media_tiles media_token_index).2
      = (media_stage M media inference_params).2 := by
  unfold forward
  dsimp only
  split <;> rfl

lemma forward_decoder {τ α σ : Type} (M : LlavaNextModel τ α σ)
    (input_ids : List Int) (position_ids : List Nat)
    (image_sizes : List (Nat × Nat)) (loss_mask : Option (List Nat))
    (attention_mask : Option (List Nat)) (media : List τ)
    (labels : Option (List Int)) (inference_params : Option InferenceParams)
    (num_media_tiles : Option (List Nat)) (media_token_index : Int)
    (hd : M.add_decoder = true) :
    (forward M input_ids position_ids image_sizes loss_mask attention_mask
        media labels inference_params num_media_tiles media_token_index).1
      = decoder_stage M input_ids position_ids image_sizes loss_mask media
          labels num_media_tiles media_token_index
          (media_stage M media inference_params).1 := by
  unfold forward
  simp [hd]

lemma forward_handoff {τ α σ : Type} (M : LlavaNextModel τ α σ)
    (input_ids : List Int) (position_ids : List Nat)
    (image_sizes : List (Nat × Nat)) (loss_mask : Option (List Nat))
    (attention_mask : Option (List Nat)) (media : List τ)
    (labels : Option (List Int)) (inference_params : Option InferenceParams)
    (num_media_tiles : Option (List Nat)) (media_token_index : Int)
    (hd : M.add_decoder = false) :
    (forward M input_ids position_ids image_sizes loss_mask attention_mask
        media labels inference_params num_media_tiles media_token_index).1
      = FwdResult.handoff (media_stage M media inference_params).1 := by
  unfold forward
  simp [hd]

lemma media_stage_newline {τ α σ : Type} (M : LlavaNextModel τ α σ)
    (media : List τ) (ip : Option InferenceParams) :
    ((media_stage M media ip).2.1).image_newline = M.image_newline := by
  unfold media_stage
  dsimp only
  split
  · rfl
  split
  · rfl
  split
  · split <;> rfl
  · rfl

lemma media_stage_fst_congr {τ α σ : Type} (M : LlavaNextModel τ α σ)
    (lm2 : List α → Option (List Int) → σ) (nl2 : List α)
    (media : List τ) (ip : Option InferenceParams) :
    (media_stage { M with language_model := lm2, image_newline := nl2 } media ip).1
      = (media_stage M media ip).1 := by
  unfold media_stage
  dsimp only
  cases hkv : use_inference_kv_cache ip <;>
    cases hae : M.add_encoder <;>
      cases hhi : decide (0 < media.length) <;> simp [hkv, hae, hhi]

/-! ### Claim theorems about `forward` -/

/-- C4 (code divergence): `forward` tests the cache for the key
`"image_tokens_count"` (line 249) but records the count under
`"media_tokens_count"` (line 287).  Consequently (i) with the checked key
present on a stage with a decoder, `media_embeddings` is None and
`torch.split(None, ...)` raises instead of all media computation being
skipped; (ii) with the key the code itself recorded, the shortcut does not
fire and the full media computation (vision encoder included) runs again,
exactly as with no cache at all; (iii) the recorded key after an encoder run
is `"media_tokens_count"`, so `use_inference_kv_cache` remains false. -/
theorem inference_cache_divergence :
    (forward Mfull [5, -200, 7] [0, 1, 2] [(1, 1)] none none [42] none
        (some { key_value_memory_dict := [("image_tokens_count", 7)] }) none (-200)).1
      = FwdResult.crash "TypeError: NoneType has no attribute split"
    ∧ (forward Mfull [5, -200, 7] [0, 1, 2] [(1, 1)] none none [42] none
        (some { key_value_memory_dict := [("media_tokens_count", 5)] }) none (-200)).1
      = (forward Mfull [5, -200, 7] [0, 1, 2] [(1, 1)] none none [42] none
          none none (-200)).1
    ∧ (forward Mfull [5, -200, 7] [0, 1, 2] [(1, 1)] none none [42] none
        (some { key_value_memory_dict := [("media_tokens_count", 5)] }) none (-200)).1
      = FwdResult.single [5, 42, 7]
    ∧ (forward Mfull [5, -200, 7] [0, 1, 2] [(1, 1)] none none [42] none
        (some { key_value_memory_dict := [] }) none (-200)).2.2
      = some { key_value_memory_dict := [("media_tokens_count", 1)] }
    ∧ use_inference_kv_cache
        (some { key_value_memory_dict := [("media_tokens_count", 5)] }) = false :=
  ⟨rfl, rfl, rfl, rfl, rfl⟩

/-- C5 counterexample: with labels supplied but `loss_mask = None`, the stage
with a decoder returns the bare output (here the loss, since labels were
passed to the language model), not the (loss, adjusted loss mask) pair. -/
theorem forward_pair_cex :
    (forward Mfull [5, -200, 7] [0, 1, 2] [(1, 1)] none none [42]
        (some [1, 2, 3]) none none (-200)).1 = FwdResult.single [5, 42, 7]
    ∧ isPair (forward Mfull [5, -200, 7] [0, 1, 2] [(1, 1)] none none [42]
        (some [1, 2, 3]) none none (-200)).1 = false :=
  ⟨rfl, rfl⟩

/-- C5 (amended): on a stage with a decoder, when the call does not raise,
`forward` returns the (output, adjusted loss mask) pair exactly when both
labels and loss mask are supplied, and the bare output otherwise. -/
theorem forward_return_arity {τ α σ : Type} (M : LlavaNextModel τ α σ)
    (input_ids : List Int) (position_ids : List Nat)
    (image_sizes : List (Nat × Nat)) (loss_mask : Option (List Nat))
    (attention_mask : Option (List Nat)) (media : List τ)
    (labels : Option (List Int)) (inference_params : Option InferenceParams)
    (num_media_tiles : Option (List Nat)) (media_token_index : Int)
    (hd : M.add_decoder = true)
    (hnc : isCrash (forward M input_ids position_ids image_sizes loss_mask
        attention_mask media labels inference_params num_media_tiles
        media_token_index).1 = false) :
    isPair (forward M input_ids position_ids image_sizes loss_mask
        attention_mask media labels inference_params num_media_tiles
        media_token_index).1 = (labels.isSome && loss_mask.isSome) := by
  rw [forward_decoder M input_ids position_ids image_sizes loss_mask
    attention_mask media labels inference_params num_media_tiles
    media_token_index hd] at hnc ⊢
  unfold decoder_stage at hnc ⊢
  cases hme : (media_stage M media inference_params).1 with
  | none =>
      rw [hme] at hnc
      simp [isCrash] at hnc
  | some embs =>
      rw [hme] at hnc
      dsimp only at hnc ⊢
      cases hr : merge_input_ids_with_image_features media_token_index input_ids
          ((text_embeddings_for M input_ids position_ids).getD [])
          (packed_for M image_sizes media num_media_tiles embs).1 with
      | error e =>
          rw [hr] at hnc
          simp [isCrash] at hnc
      | ok combined =>
          dsimp only
          exact final_return_arity labels loss_mask _ _

/-- Witness for C5: both labels and loss mask supplied on the concrete
single-stage model produce the pair. -/
theorem forward_return_arity_w :
    isPair (forward Mfull [5, -200, 7] [0, 1, 2] [(1, 1)] (some [1, 1, 1])
        none [42] (some [1, 2, 3]) none none (-200)).1
      = ((some [1, 2, 3] : Option (List Int)).isSome
          && (some [1, 1, 1] : Option (List Nat)).isSome) :=
  forward_return_arity Mfull [5, -200, 7] [0, 1, 2] [(1, 1)] (some [1, 1, 1])
    none [42] (some [1, 2, 3]) none none (-200) rfl rfl

/-- C8 counterexample: on an encoder-only stage (`add_decoder = false`) whose
inference cache holds the checked media-token-count key and whose micro-batch
has no media, `forward` returns None, not an empty zero-size embedding
tensor. -/
theorem encoder_stage_cex :
    (forward Menc [5, -200, 7] [0, 1, 2] [(1, 1)] none none ([] : List Nat)
        none (some { key_value_memory_dict := [("image_tokens_count", 3)] })
        none (-200)).1
      = FwdResult.handoff none
    ∧ (FwdResult.handoff none : FwdResult Nat (List Nat))
        ≠ FwdResult.handoff (some ([] : List (List Nat))) :=
  ⟨rfl, by decide⟩

/-- C8 (amended): on an encoder-only stage (`add_decoder = false`), `forward`
returns the media-embeddings hand-off directly; the result does not depend on
the language model or the `image_newline` separator (neither packing, fusion,
nor the language model is invoked); and when there is no inference-cache hit,
no media in the micro-batch, and an encoder is present, the hand-off value is
the empty zero-size embedding tensor. -/
theorem encoder_stage_handoff {τ α σ : Type} (M : LlavaNextModel τ α σ)
    (input_ids : List Int) (position_ids : List Nat)
    (image_sizes : List (Nat × Nat)) (loss_mask : Option (List Nat))
    (attention_mask : Option (List Nat)) (media : List τ)
    (labels : Option (List Int)) (inference_params : Option InferenceParams)
    (num_media_tiles : Option (List Nat)) (media_token_index : Int)
    (hd : M.add_decoder = false) :
    (forward M input_ids position_ids image_sizes loss_mask attention_mask
        media labels inference_params num_media_tiles media_token_index).1
      = FwdResult.handoff (media_stage M media inference_params).1
    ∧ (∀ (lm2 : List α → Option (List Int) → σ) (nl2 : List α),
        (forward { M with language_model := lm2, image_newline := nl2 }
            input_ids position_ids image_sizes loss_mask attention_mask media
            labels inference_params num_media_tiles media_token_index).1
          = (forward M input_ids position_ids image_sizes loss_mask
              attention_mask media labels inference_params num_media_tiles
              media_token_index).1)
    ∧ (use_inference_kv_cache inference_params = false → M.add_encoder = true →
        media = [] →
        (forward M input_ids position_ids image_sizes loss_mask attention_mask
            media labels inference_params num_media_tiles media_token_index).1
          = FwdResult.handoff (some [])) := by
  refine ⟨forward_handoff M input_ids position_ids image_sizes loss_mask
    attention_mask media labels inference_params num_media_tiles
    media_token_index hd, ?_, ?_⟩
  · intro lm2 nl2
    have hd2 : ({ M with language_model := lm2, image_newline := nl2 } :
        LlavaNextModel τ α σ).add_decoder = false := hd
    rw [forward_handoff _ input_ids position_ids image_sizes loss_mask
      attention_mask media labels inference_params num_media_tiles
      media_token_index hd2,
      forward_handoff M input_ids position_ids image_sizes loss_mask
      attention_mask media labels inference_params num_media_tiles
      media_token_index hd,
      media_stage_fst_congr]
  · intro h1 h2 h3
    subst h3
    rw [forward_handoff M input_ids position_ids image_sizes loss_mask
      attention_mask [] labels inference_params num_media_tiles
      media_token_index hd]
    unfold media_stage
    simp [h1, h2]

/-- Witness for C8: the concrete encoder-only model with no media and no
cache hit returns the empty zero-size embedding hand-off. -/
theorem encoder_stage_handoff_w :
    (forward Menc [5, -200, 7] [0, 1, 2] [(1, 1)] none none ([] : List Nat)
        none none none (-200)).1 = FwdResult.handoff (some []) :=
  (encoder_stage_handoff Menc [5, -200, 7] [0, 1, 2] [(1, 1)] none none []
    none none none (-200) rfl).2.2 rfl rfl rfl

/-- C9: the learned `image_newline` row-separator parameter is created at
model construction (set to the supplied initialisation vector, once), and no
forward call mutates it: the post-call model state carries the identical
value, even on paths that do mutate model state (the HF eval-mode flip). -/
theorem image_newline_frame {τ α σ : Type} (M : LlavaNextModel τ α σ)
    (input_ids : List Int) (position_ids : List Nat)
    (image_sizes : List (Nat × Nat)) (loss_mask : Option (List Nat))
    (attention_mask : Option (List Nat)) (media : List τ)
    (labels : Option (List Int)) (inference_params : Option InferenceParams)
    (num_media_tiles : Option (List Nat)) (media_token_index : Int) :
    ((forward M input_ids position_ids image_sizes loss_mask attention_mask
        media labels inference_params num_media_tiles
        media_token_index).2.1).image_newline = M.image_newline
    ∧ ∀ (ae ad pp sp : Bool) (tp : Nat) (vh : Bool)
        (vc : List τ → List (List α)) (ehs : Option (List (List α)))
        (le : List Int → List Nat → List α)
        (lm : List α → Option (List Int) → σ) (nl : List α),
        (mkLlavaNextModel ae ad pp sp tp vh vc ehs le lm nl).image_newline = nl := by
  constructor
  · have h2 := forward_snd M input_ids position_ids image_sizes loss_mask
      attention_mask media labels inference_params num_media_tiles
      media_token_index
    have h3 : (forward M input_ids position_ids image_sizes loss_mask
        attention_mask media labels inference_params num_media_tiles
        media_token_index).2.1 = (media_stage M media inference_params).2.1 := by
      rw [h2]
    rw [h3, media_stage_newline]
  · intro ae ad pp sp tp vh vc ehs le lm nl
    rfl

/-! ### C10: the clone in the sentinel-stripping step -/

/-- `base.py` lines 298-300 at the heap level: tensors are cells of a store,
the caller's `input_ids` lives in cell `a`.  `input_ids_text =
input_ids.clone()` allocates a fresh cell holding a copy, and
`input_ids_text[input_ids_text < 0] = 0` updates that fresh cell in place;
the result is the new store and the address of the clone. -/
def stripSentinels (store : List (List Int)) (a : Nat) : List (List Int) × Nat :=
  let b := store.length
  let store1 := store ++ [store.getD a []]
  let store2 := store1.set b ((store.getD a []).map clampNeg)
  (store2, b)

lemma getD_append_left {β : Type} (d : β) (l l2 : List β) :
    ∀ j, j < l.length → (l ++ l2).getD j d = l.getD j d := by
  induction l with
  | nil => intro j h; simp at h
  | cons b l ih =>
      intro j h
      cases j with
      | zero => rfl
      | succ j => exact ih j (by simpa using h)

lemma getD_set_ne {β : Type} (d x : β) :
    ∀ (l : List β) (i j : Nat), i ≠ j → (l.set i x).getD j d = l.getD j d := by
  intro l
  induction l with
  | nil => intro i j _; simp
  | cons b l ih =>
      intro i j hij
      cases i with
      | zero =>
          cases j with
          | zero => exact absurd rfl hij
          | succ j => rfl
      | succ i =>
          cases j with
          | zero => rfl
          | succ j => exact ih i j (fun h => hij (by rw [h]))

lemma getD_set_self {β : Type} (d x : β) :
    ∀ (l : List β) (i : Nat), i < l.length → (l.set i x).getD i d = x := by
  intro l
  induction l with
  | nil => intro i h; simp at h
  | cons b l ih =>
      intro i h
      cases i with
      | zero => rfl
      | succ i => exact ih i (by simpa using h)

/-- C10: the sentinel-stripping step operates on a clone — after it, the
caller's `input_ids` cell is unchanged (negative sentinel entries intact)
while the clone cell holds the clamped copy used for the embedding lookup;
and the original `input_ids` (with its `-200` sentinel) is what reaches the
Sequence Fusion Engine: the concrete forward run replaces the sentinel
position by the media embedding (42), which only happens when fusion sees
the sentinel id. -/
theorem input_ids_frame (store : List (List Int)) (a : Nat)
    (h : a < store.length) :
    ((stripSentinels store a).1).getD a [] = store.getD a []
    ∧ ((stripSentinels store a).1).getD (stripSentinels store a).2 []
        = (store.getD a []).map clampNeg
    ∧ (forward Mfull [5, -200, 7] [0, 1, 2] [(1, 1)] none none [42] none none
        none (-200)).1 = FwdResult.single [5, 42, 7] := by
  refine ⟨?_, ?_, rfl⟩
  · show ((store ++ [store.getD a []]).set store.length
        ((store.getD a []).map clampNeg)).getD a [] = store.getD a []
    rw [getD_set_ne _ _ _ _ _ (fun hq => absurd hq.symm (Nat.ne_of_lt h))]
    exact getD_append_left _ store _ a h
  · show ((store ++ [store.getD a []]).set store.length
        ((store.getD a []).map clampNeg)).getD store.length []
      = (store.getD a []).map clampNeg
    exact getD_set_self _ _ _ _ (by simp)

/-- Witness for C10 at a one-cell store holding `[5, -200, 7]`. -/
theorem input_ids_frame_w :
    (0 : Nat) < ([[5, -200, 7]] : List (List Int)).length
    ∧ ((stripSentinels [[5, -200, 7]] 0).1).getD 0 []
        = ([[5, -200, 7]] : List (List Int)).getD 0 [] :=
  ⟨by decide, (input_ids_frame [[5, -200, 7]] 0 (by decide)).1⟩

/-! ### C6: the sequence-parallel pad-then-strip round trip -/

/-- C6: with sequence parallelism enabled, the text ids are right-padded to
the padding target `(n + tp - 1) / tp * tp` — the next multiple of the
tensor-parallel world size —, looked up, gathered back to full width, and
the padding stripped again: whenever the embedding lookup is length
preserving, the language embeddings handed to fusion are exactly the first
`n` embeddings of the padded lookup, of exactly the original text sequence
length. -/
theorem sp_roundtrip {α : Type} (tp : Nat) (emb : List Int → List Nat → List α)
    (ids : List Int) (pos : List Nat) (h1 : 1 ≤ tp)
    (h2 : ∀ i p, (emb i p).length = i.length) :
    (sp_text_embeddings tp emb ids pos).length = ids.length
    ∧ sp_text_embeddings tp emb ids pos
        = (emb (ids ++ List.replicate (spPadTarget tp ids.length - ids.length) 0)
            (pos ++ List.replicate (spPadTarget tp ids.length - ids.length) 0)).take
            ids.length
    ∧ spPadTarget tp ids.length % tp = 0
    ∧ ids.length ≤ spPadTarget tp ids.length := by
  have hlen : (emb (ids ++ List.replicate (spPadTarget tp ids.length - ids.length) 0)
      (pos ++ List.replicate (spPadTarget tp ids.length - ids.length) 0)).length
      = ids.length + (spPadTarget tp ids.length - ids.length) := by
    rw [h2]
    simp
  have hmod : spPadTarget tp ids.length % tp = 0 := by
    rw [spPadTarget]
    exact Nat.mul_mod_left _ _
  have hge : ids.length ≤ spPadTarget tp ids.length := by
    rw [spPadTarget]
    have hdm := Nat.mod_add_div (ids.length + tp - 1) tp
    have hlt := Nat.mod_lt (ids.length + tp - 1) (show 0 < tp from h1)
    have hcomm : (ids.length + tp - 1) / tp * tp
        = tp * ((ids.length + tp - 1) / tp) := Nat.mul_comm _ _
    rw [hcomm]
    generalize tp * ((ids.length + tp - 1) / tp) = k at hdm ⊢
    omega
  refine ⟨?_, ?_, hmod, hge⟩
  · rw [sp_text_embeddings]
    split
    · rw [List.length_take, hlen]
      omega
    · rename_i hz
      rw [hlen]
      omega
  · rw [sp_text_embeddings]
    split
    · rw [hlen]
      congr 1
      omega
    · rename_i hz
      have hz0 : spPadTarget tp ids.length - ids.length = 0 := by omega
      rw [List.take_of_length_le (by rw [hlen, hz0]; omega)]

/-- Witness for C6: world size 4, a length-5 token sequence, and a
length-preserving embedding lookup. -/
theorem sp_roundtrip_w :
    (sp_text_embeddings 4 (fun i _ => i.map Int.toNat) [1, -2, 3, 4, 5]
        [0, 1, 2, 3, 4]).length = ([1, -2, 3, 4, 5] : List Int).length :=
  (sp_roundtrip 4 (fun i _ => i.map Int.toNat) [1, -2, 3, 4, 5] [0, 1, 2, 3, 4]
    (by decide) (fun i p => by simp)).1

/-! ### C7: the data-step adapter (`llava_next_data_step`, lines 30-83) -/

/-- `base.py` lines 56-65: the always-required keys. -/
def baseRequiredKeys : List String :=
  ["tokens", "attention_mask", "media", "num_media_tiles", "image_sizes"]

/-- `base.py` lines 56-74: the required keys of the current pipeline stage —
the base set, plus `position_ids` only on the first stage, plus `labels` and
`loss_mask` only on the last stage. -/
def requiredKeys (is_first is_last : Bool) : List String :=
  baseRequiredKeys ++ (if is_first then ["position_ids"] else [])
    ++ (if is_last then ["labels", "loss_mask"] else [])

/-- `base.py` lines 76-79: the dict comprehension
`{key: val.cuda(non_blocking=True) if key in required_keys and val is not
None else None for key, val in _batch.items()}` — `cuda` is the black-box
device transfer. -/
def llava_next_filter {V : Type} (is_first is_last : Bool) (cuda : V → V)
    (batch : List (String × Option V)) : List (String × Option V) :=
  batch.map (fun kv =>
    (kv.1,
      if (requiredKeys is_first is_last).contains kv.1 && kv.2.isSome
      then kv.2.map cuda else none))

/-- `llava_next_data_step` (`base.py` lines 30-83): key filtering/transfer
followed by the context-parallel sequence slicing
(`get_batch_on_this_context_parallel_rank`, an external collaborator defined
outside this module, passed in as `cp_rank_slice`). -/
def llava_next_data_step {V : Type} (is_first is_last : Bool) (cuda : V → V)
    (cp_rank_slice : List (String × Option V) → List (String × Option V))
    (batch : List (String × Option V)) : List (String × Option V) :=
  cp_rank_slice (llava_next_filter is_first is_last cuda batch)

/-- C7: the data step (with the external context-parallel slice held at the
identity so the filtered dict itself is observed) keeps every key of the raw
batch, transfers exactly the required present values through the device
transfer, nulls out everything else, and the required-key set is the base
keys always, `position_ids` exactly on the first pipeline stage, and
`labels`/`loss_mask` exactly on the last pipeline stage. -/
theorem data_step_keys {V : Type} (is_first is_last : Bool) (cuda : V → V)
    (batch : List (String × Option V)) :
    (llava_next_data_step is_first is_last cuda id batch).map Prod.fst
      = batch.map Prod.fst
    ∧ (∀ k v, (k, some v) ∈ llava_next_data_step is_first is_last cuda id batch →
        (requiredKeys is_first is_last).contains k = true
        ∧ ∃ w, (k, some w) ∈ batch ∧ v = cuda w)
    ∧ (∀ k w, (k, some w) ∈ batch →
        (requiredKeys is_first is_last).contains k = true →
        (k, some (cuda w)) ∈ llava_next_data_step is_first is_last cuda id batch)
    ∧ (∀ k v, (k, v) ∈ batch →
        (requiredKeys is_first is_last).contains k = false →
        (k, none) ∈ llava_next_data_step is_first is_last cuda id batch)
    ∧ (("position_ids" ∈ requiredKeys is_first is_last) ↔ is_first = true)
    ∧ (("labels" ∈ requiredKeys is_first is_last) ↔ is_last = true)
    ∧ (("loss_mask" ∈ requiredKeys is_first is_last) ↔ is_last = true)
    ∧ (∀ k, k ∈ baseRequiredKeys → k ∈ requiredKeys is_first is_last) := by
  refine ⟨?_, ?_, ?_, ?_, ?_, ?_, ?_, ?_⟩
  · induction batch with
    | nil => rfl
    | cons kv rest ih =>
        simp only [llava_next_data_step, id_eq, llava_next_filter,
          List.map_cons] at ih ⊢
        rw [ih]
  · intro k v hmem
    simp only [llava_next_data_step, id_eq, llava_next_filter,
      List.mem_map] at hmem
    obtain ⟨⟨k0, v0⟩, hkv, heq⟩ := hmem
    rw [Prod.mk.injEq] at heq
    obtain ⟨h1, h2⟩ := heq
    dsimp only at h1 h2
    subst h1
    by_cases hc : ((requiredKeys is_first is_last).contains k0 && v0.isSome) = true
    · rw [if_pos hc] at h2
      rw [Bool.and_eq_true] at hc
      cases hv0 : v0 with
      | none => rw [hv0] at h2; simp at h2
      | some w =>
          rw [hv0] at h2
          simp only [Option.map_some'] at h2
          refine ⟨hc.1, w, ?_, ?_⟩
          · rw [← hv0]; exact hkv
          · exact (Option.some.injEq _ _ ▸ h2).symm
    · rw [if_neg hc] at h2
      simp at h2
  · intro k w hmem hreq
    simp only [llava_next_data_step, id_eq, llava_next_filter]
    have hcond : ((requiredKeys is_first is_last).contains k
        && (some w : Option V).isSome) = true := by
      rw [hreq]
      rfl
    have h0 : ((fun kv : String × Option V =>
        (kv.1,
          if (requiredKeys is_first is_last).contains kv.1 && kv.2.isSome
          then kv.2.map cuda else none)) (k, some w)) = (k, some (cuda w)) := by
      dsimp only
      rw [hcond]
      rfl
    rw [← h0]
    exact List.mem_map_of_mem _ hmem
  · intro k v hmem hreq
    simp only [llava_next_data_step, id_eq, llava_next_filter]
    have hcond : ((requiredKeys is_first is_last).contains k && v.isSome) = false := by
      rw [hreq]
      rfl
    have h0 : ((fun kv : String × Option V =>
        (kv.1,
          if (requiredKeys is_first is_last).contains kv.1 && kv.2.isSome
          then kv.2.map cuda else none)) (k, v)) = (k, none) := by
      dsimp only
      rw [hcond]
      rfl
    rw [← h0]
    exact List.mem_map_of_mem _ hmem
  · cases is_first <;> cases is_last <;> decide
  · cases is_first <;> cases is_last <;> decide
  · cases is_first <;> cases is_last <;> decide
  · intro k hk
    exact List.mem_append_left _ (List.mem_append_left _ hk)

/-- Witness for C7: on a first (non-last) pipeline stage, the required
`tokens` entry of a concrete batch is kept and transferred (its value run
through the device transfer) while the unrequired `labels` entry is nulled
out in the output dict. -/
theorem data_step_keys_w :
    ("tokens", (some 2 : Option Nat)) ∈
      llava_next_data_step true false Nat.succ id
        [("tokens", some 1), ("labels", some 2)]
    ∧ ("labels", (none : Option Nat)) ∈
      llava_next_data_step true false Nat.succ id
        [("tokens", some 1), ("labels", some 2)] :=
  ⟨(data_step_keys true false Nat.succ
      [("tokens", some 1), ("labels", some 2)]).2.2.1 "tokens" 1
    (by simp) (by decide),
    (data_step_keys true false Nat.succ
      [("tokens", some 1), ("labels", some 2)]).2.2.2.1 "labels" (some 2)
    (by simp) (by decide)⟩
